import Mathlib

/-!
Verification of the WASI I/O-context core of `wasmtime-rb`
(`ext/src/ruby_api/wasi_ctx.rs`), shallowly embedded in Lean 4.

The embedding models:
* the three-slot stream context (`WasiCtxImpl`, wrapped by `WasiCtx`);
* the stream backends: file source/sink, in-memory source (`ReadPipe`),
  capacity-bounded sink (`OutputLimitedBuffer` behind a `WritePipe`);
* the Ruby-visible configuration methods of `Wasmtime::WasiCtx`, including
  their `.unwrap()` calls (modelled as a `panicked` call outcome);
* a small guest-operation semantics (read stdin / write stdout / write
  stderr) parameterised by an abstract `Host` (filesystem, clock, identity),
  used to state determinism, frame and capacity properties.

Parts of the repository that are referenced by `wasi_ctx.rs` but whose
source is not in the excerpt (`wasi_ctx_builder::file_r/file_w/wasi_file`,
`helpers::OutputLimitedBuffer`, the `deterministic-wasi-ctx` builder and
`wasi_common`'s `ReadPipe`/`WritePipe`/`WasiCtx`) are modelled from the
spec; each such definition carries a doc comment saying so.
-/

namespace WasmtimeRb

/-- A byte; we use `Nat` (the claims never depend on the 0..255 bound). -/
abbrev Byte := Nat

/-- A Ruby `String` used as an output buffer: its byte content plus its
frozen flag (`rb_obj_frozen_p`).  Modelled from the spec: the byte-buffer
handle abstraction is "mutable, append-only view with a queryable
immutability flag" (§6). -/
structure RubyString where
  bytes : List Byte
  frozen : Bool
  deriving DecidableEq, Repr

/-- Errors a guest-visible stream write can produce (spec §7 taxonomy):
`capacityExceeded` and `bufferImmutable` from the bounded sink, `ioFault`
for an underlying host-file fault, `notWritable` when the installed
backend is not a writable stream. -/
inductive WriteError
  | capacityExceeded
  | bufferImmutable
  | ioFault
  | notWritable
  deriving DecidableEq, Repr

/-- Modelled from the spec: `helpers::OutputLimitedBuffer` (not in the
excerpt) — a writable sink over a caller-supplied Ruby string buffer with
a hard byte capacity (spec §3, §4.2). -/
structure OutputLimitedBuffer where
  buffer : RubyString
  capacity : Nat
  deriving DecidableEq, Repr

/-- Modelled from the spec: `OutputLimitedBuffer`'s `Write::write`.
If the target buffer is frozen the write fails with `bufferImmutable`
(spec §4.1, and the doc comment on `set_stdout_buffer` in the source);
if appending would exceed the capacity it fails with `capacityExceeded`
and commits nothing (spec §4.2, all-or-nothing); otherwise the bytes are
appended in order.  The returned buffer is the (possibly updated) state;
on failure it is the unchanged input. -/
def OutputLimitedBuffer.write (o : OutputLimitedBuffer) (bs : List Byte) :
    OutputLimitedBuffer × Option WriteError :=
  if o.buffer.frozen then (o, some .bufferImmutable)
  else if o.capacity < o.buffer.bytes.length + bs.length then
    (o, some .capacityExceeded)
  else ({ o with buffer := { o.buffer with bytes := o.buffer.bytes ++ bs } }, none)

/-- A stream backend occupying one of the three context slots.
`fileRead`/`fileWrite` model the `wasi_file` wrappers over host files
(`fileRead` keeps a read cursor); `memSource` models
`wasi_common::pipe::ReadPipe` over an owned copy of a byte sequence, with
its read cursor; `boundedSink` models a `WritePipe` over an
`OutputLimitedBuffer` targeting the Ruby string identified by `bufId`;
`detSink` models the deterministic preset's output sink, which captures
the bytes written to it. -/
inductive IoBackend
  | fileRead (path : String) (pos : Nat)
  | fileWrite (path : String)
  | memSource (content : List Byte) (pos : Nat)
  | boundedSink (bufId : Nat) (capacity : Nat)
  | detSink (captured : List Byte)
  deriving DecidableEq, Repr

/-- Model of `wasi_common::WasiCtx` (the `inner`): the three stream slots.  The
slots are `Option`-valued to model the file-descriptor table entries 0, 1
and 2 so that "always populated" (spec §3 invariant) is a statement, not
a typing artefact. -/
structure WasiCtxImpl where
  stdin : Option IoBackend
  stdout : Option IoBackend
  stderr : Option IoBackend
  deriving DecidableEq, Repr

/-- Setter `WasiCtx::set_stdin` of `wasi_common`: replace the stdin slot. -/
def WasiCtxImpl.set_stdin (c : WasiCtxImpl) (b : IoBackend) : WasiCtxImpl :=
  { c with stdin := some b }

/-- Setter `WasiCtx::set_stdout` of `wasi_common`: replace the stdout slot. -/
def WasiCtxImpl.set_stdout (c : WasiCtxImpl) (b : IoBackend) : WasiCtxImpl :=
  { c with stdout := some b }

/-- Setter `WasiCtx::set_stderr` of `wasi_common`: replace the stderr slot. -/
def WasiCtxImpl.set_stderr (c : WasiCtxImpl) (b : IoBackend) : WasiCtxImpl :=
  { c with stderr := some b }

/-- The Ruby-wrapped `Wasmtime::WasiCtx` struct:
`pub struct WasiCtx { inner: RefCell<WasiCtxImpl> }`. -/
structure WasiCtx where
  inner : WasiCtxImpl
  deriving DecidableEq, Repr

/-- Modelled from the spec: `deterministic_wasi_ctx::build_wasi_ctx`
(external crate, not in the excerpt) — a context whose stdin is
empty-or-fixed and whose stdout/stderr are deterministic capture sinks
with no host side channel (spec §4.5, §6). -/
def wasi_deterministic_ctx : WasiCtxImpl :=
  { stdin := some (.memSource [] 0)
    stdout := some (.detSink [])
    stderr := some (.detSink []) }

/-- Constructor `WasiCtx::deterministic` (source lines 35–39). -/
def WasiCtx.deterministic : WasiCtx :=
  { inner := wasi_deterministic_ctx }

/-- Constructor `WasiCtx::from_inner` (source lines 122–126). -/
def WasiCtx.from_inner (inner : WasiCtxImpl) : WasiCtx :=
  { inner := inner }

/-- Accessor `WasiCtx::get_inner` (source lines 128–131): clone the stored inner
context out of the `RefCell`, leaving the object as it was.  The second
component is the state of the receiver after the call. -/
def WasiCtx.get_inner (s : WasiCtx) : WasiCtxImpl × WasiCtx :=
  (s.inner, s)

/-- The ambient host environment a backend could, in principle, observe:
readable file contents, per-path writability, a wall clock and a host
identity.  The deterministic preset must make all of these unobservable
through the three streams (spec §4.5). -/
structure Host where
  fs : String → Option (List Byte)
  fsWritable : String → Bool
  clock : Nat
  hostId : List Byte

/-- The world a configured context lives in: the context object, the
contents of host files written through file sinks, and the Ruby string
buffers targeted by bounded sinks (indexed by object id). -/
structure World where
  ctx : WasiCtx
  files : String → List Byte
  rstrings : Nat → RubyString

/-- A world with a given context, no written file content and all Ruby
buffers empty and unfrozen. -/
def initWorld (c : WasiCtx) : World :=
  { ctx := c, files := fun _ => [], rstrings := fun _ => ⟨[], false⟩ }

/-- Outcome of a Ruby method call: normal return, or a Rust panic
(`unwrap` on `Err`), which magnus surfaces to the caller at the point of
the call. -/
inductive CallOutcome (α : Type) where
  | ok (a : α)
  | panicked
  deriving DecidableEq, Repr

/-- Modelled from the spec: `wasi_ctx_builder::file_r` (not in the
excerpt) — open `path` read-only; fails iff the path cannot be opened
for reading (spec §4.3).  The returned handle is the path. -/
def file_r (h : Host) (path : String) : Option String :=
  if (h.fs path).isSome then some path else none

/-- Modelled from the spec: `wasi_ctx_builder::file_w` (not in the
excerpt) — create-or-truncate `path` for writing; fails iff the path
cannot be created/opened/truncated (spec §4.3). -/
def file_w (h : Host) (path : String) : Option String :=
  if h.fsWritable path then some path else none

/-- Modelled from the spec: `wasi_ctx_builder::wasi_file` wraps an open
read handle as a stream backend; the backend keeps a read cursor. -/
def wasiFileRead (path : String) : IoBackend :=
  .fileRead path 0

/-- Modelled from the spec: `wasi_ctx_builder::wasi_file` wraps an open
write handle as a stream backend. -/
def wasiFileWrite (path : String) : IoBackend :=
  .fileWrite path

/-- Method `WasiCtx::set_stdin_file` (source lines 46–51):
`file_r(path).map(wasi_file).unwrap()` then `inner.set_stdin(cs)`.
The `.unwrap()` panics when the open fails, before any mutation. -/
def set_stdin_file (h : Host) (w : World) (path : String) :
    World × CallOutcome Unit :=
  match (file_r h path).map wasiFileRead with
  | none => (w, .panicked)
  | some cs => ({ w with ctx.inner := w.ctx.inner.set_stdin cs }, .ok ())

/-- Method `WasiCtx::set_stdin_string` (source lines 58–64): build a `ReadPipe`
over a copy of `content` taken at call time and install it as stdin.
No failure path. -/
def set_stdin_string (w : World) (content : List Byte) :
    World × CallOutcome Unit :=
  ({ w with ctx.inner := w.ctx.inner.set_stdin (.memSource content 0) }, .ok ())

/-- Method `WasiCtx::set_stdout_file` (source lines 72–77):
`file_w(path).map(wasi_file).unwrap()` then `inner.set_stdout(cs)`.
Opening with `file_w` truncates (or creates) the file, so on success the
file's content becomes empty at configuration time. -/
def set_stdout_file (h : Host) (w : World) (path : String) :
    World × CallOutcome Unit :=
  match (file_w h path).map wasiFileWrite with
  | none => (w, .panicked)
  | some cs =>
    ({ w with ctx.inner := w.ctx.inner.set_stdout cs
              files := fun p => if p = path then [] else w.files p }, .ok ())

/-- Method `WasiCtx::set_stdout_buffer` (source lines 87–92): install a
`WritePipe` over an `OutputLimitedBuffer` targeting the Ruby string
`bufId` with the given capacity.  No failure path at configuration time. -/
def set_stdout_buffer (w : World) (bufId : Nat) (capacity : Nat) :
    World × CallOutcome Unit :=
  ({ w with ctx.inner := w.ctx.inner.set_stdout (.boundedSink bufId capacity) }, .ok ())

/-- Method `WasiCtx::set_stderr_file` (source lines 100–105): as
`set_stdout_file`, for the stderr slot. -/
def set_stderr_file (h : Host) (w : World) (path : String) :
    World × CallOutcome Unit :=
  match (file_w h path).map wasiFileWrite with
  | none => (w, .panicked)
  | some cs =>
    ({ w with ctx.inner := w.ctx.inner.set_stderr cs
              files := fun p => if p = path then [] else w.files p }, .ok ())

/-- Method `WasiCtx::set_stderr_buffer` (source lines 115–120): as
`set_stdout_buffer`, for the stderr slot. -/
def set_stderr_buffer (w : World) (bufId : Nat) (capacity : Nat) :
    World × CallOutcome Unit :=
  ({ w with ctx.inner := w.ctx.inner.set_stderr (.boundedSink bufId capacity) }, .ok ())

/-- A guest-visible stream operation: read up to `n` bytes from stdin,
or write a byte sequence to stdout / stderr. -/
inductive GuestOp
  | readStdin (n : Nat)
  | writeStdout (bs : List Byte)
  | writeStderr (bs : List Byte)
  deriving DecidableEq, Repr

/-- The guest-visible result of one stream operation: the bytes a read
returned (empty = end-of-stream), or a write's outcome (`none` =
success). -/
inductive OpResult
  | reads (bs : List Byte)
  | writes (e : Option WriteError)
  deriving DecidableEq, Repr

/-- Read up to `n` bytes from a readable backend.  A `memSource` serves
from its owned copy at its cursor and advances the cursor by the number
of bytes actually delivered (reading past the end yields `[]`, the
end-of-stream signal, and is a no-op).  A `fileRead` backend serves from
the host file at its cursor.  Write-only backends deliver nothing. -/
def readFrom (h : Host) (b : IoBackend) (n : Nat) : IoBackend × List Byte :=
  match b with
  | .memSource content pos =>
    let r := (content.drop pos).take n
    (.memSource content (pos + r.length), r)
  | .fileRead path pos =>
    let r := (((h.fs path).getD []).drop pos).take n
    (.fileRead path (pos + r.length), r)
  | b => (b, [])

/-- Write a byte sequence through a writable backend.  A `fileWrite`
appends to the host file (failing with `ioFault` when the host no longer
lets the path be written); a `detSink` captures the bytes; a
`boundedSink` writes through `OutputLimitedBuffer.write` into the Ruby
string it targets.  Read-only backends reject the write.  Returns the
updated backend, file map, Ruby-string map and the write outcome. -/
def writeTo (h : Host) (files : String → List Byte)
    (rstrings : Nat → RubyString) (b : IoBackend) (bs : List Byte) :
    IoBackend × (String → List Byte) × (Nat → RubyString) × Option WriteError :=
  match b with
  | .fileWrite path =>
    if h.fsWritable path then
      (b, fun p => if p = path then files p ++ bs else files p, rstrings, none)
    else (b, files, rstrings, some .ioFault)
  | .detSink captured => (.detSink (captured ++ bs), files, rstrings, none)
  | .boundedSink bufId cap =>
    let r := OutputLimitedBuffer.write ⟨rstrings bufId, cap⟩ bs
    (b, files, fun i => if i = bufId then r.1.buffer else rstrings i, r.2)
  | b => (b, files, rstrings, some .notWritable)

/-- One guest stream operation against the world: route the request to
the backend currently installed in the named slot. -/
def step (h : Host) (w : World) : GuestOp → World × OpResult
  | .readStdin n =>
    match w.ctx.inner.stdin with
    | none => (w, .reads [])
    | some b =>
      let r := readFrom h b n
      ({ w with ctx.inner.stdin := some r.1 }, .reads r.2)
  | .writeStdout bs =>
    match w.ctx.inner.stdout with
    | none => (w, .writes (some .notWritable))
    | some b =>
      let r := writeTo h w.files w.rstrings b bs
      ({ w with ctx.inner.stdout := some r.1, files := r.2.1,
                rstrings := r.2.2.1 }, .writes r.2.2.2)
  | .writeStderr bs =>
    match w.ctx.inner.stderr with
    | none => (w, .writes (some .notWritable))
    | some b =>
      let r := writeTo h w.files w.rstrings b bs
      ({ w with ctx.inner.stderr := some r.1, files := r.2.1,
                rstrings := r.2.2.1 }, .writes r.2.2.2)

/-- Run a sequence of guest operations, collecting the guest-visible
results in order. -/
def run (h : Host) (w : World) : List GuestOp → World × List OpResult
  | [] => (w, [])
  | op :: ops =>
    ((run h (step h w op).1 ops).1, (step h w op).2 :: (run h (step h w op).1 ops).2)

/-- The bytes captured by a deterministic sink in the stdout slot. -/
def stdoutCapture (w : World) : List Byte :=
  match w.ctx.inner.stdout with
  | some (.detSink captured) => captured
  | _ => []

/-- The bytes captured by a deterministic sink in the stderr slot. -/
def stderrCapture (w : World) : List Byte :=
  match w.ctx.inner.stderr with
  | some (.detSink captured) => captured
  | _ => []

/-- The concatenation of all bytes a guest-operation sequence writes to
stdout. -/
def writtenStdout : List GuestOp → List Byte
  | [] => []
  | .writeStdout bs :: ops => bs ++ writtenStdout ops
  | _ :: ops => writtenStdout ops

/-- A backend that never consults the host environment (everything except
the file-backed backends). -/
def IoBackend.hostFree : IoBackend → Bool
  | .fileRead _ _ => false
  | .fileWrite _ => false
  | _ => true

/-- All populated slots of the context hold host-free backends. -/
def hostFreeWorld (w : World) : Prop :=
  (∀ b, w.ctx.inner.stdin = some b → b.hostFree = true) ∧
  (∀ b, w.ctx.inner.stdout = some b → b.hostFree = true) ∧
  (∀ b, w.ctx.inner.stderr = some b → b.hostFree = true)

/-- A configuration call issued on the context, with its arguments: one
constructor per Ruby-visible setter. -/
inductive SetterCall
  | stdinFile (path : String)
  | stdinString (content : List Byte)
  | stdoutFile (path : String)
  | stdoutBuffer (bufId capacity : Nat)
  | stderrFile (path : String)
  | stderrBuffer (bufId capacity : Nat)
  deriving DecidableEq, Repr

/-- Dispatch one configuration call to the corresponding setter. -/
def applyCall (h : Host) (w : World) : SetterCall → World × CallOutcome Unit
  | .stdinFile path => set_stdin_file h w path
  | .stdinString content => set_stdin_string w content
  | .stdoutFile path => set_stdout_file h w path
  | .stdoutBuffer bufId capacity => set_stdout_buffer w bufId capacity
  | .stderrFile path => set_stderr_file h w path
  | .stderrBuffer bufId capacity => set_stderr_buffer w bufId capacity

/-- Apply a sequence of configuration calls (a panicking call leaves the
world unchanged and the sequence is cut short by the raised exception;
modelling it as continuing on the unchanged world covers both). -/
def applyCalls (h : Host) (w : World) : List SetterCall → World
  | [] => w
  | c :: cs => applyCalls h (applyCall h w c).1 cs

/-- All three stream slots of a context are populated (spec §3
invariant). -/
def populated (c : WasiCtxImpl) : Prop :=
  c.stdin.isSome = true ∧ c.stdout.isSome = true ∧ c.stderr.isSome = true

instance (c : WasiCtxImpl) : Decidable (populated c) := by
  unfold populated; infer_instance

/-! ### The Ruby object layer

The setters are Ruby instance methods: they receive `rb_self : Obj<WasiCtx>`,
mutate the wrapped struct in place through the `RefCell`, and return
`rb_self`.  To state object identity ("returns that same context object,
no new context value is created") we model the Ruby heap as a map from
object ids to `WasiCtx` structs; each method returns the id of the object
it hands back. -/

/-- The Ruby heap, restricted to `Wasmtime::WasiCtx` objects. -/
def Heap := Nat → Option WasiCtx

/-- Update the struct wrapped by object `self` in place. -/
def Heap.updateAt (heap : Heap) (self : Nat) (f : WasiCtx → WasiCtx) : Heap :=
  fun i => if i = self then (heap i).map f else heap i

/-- Method `set_stdin_file` as a Ruby call on object `self`: on open
failure the `.unwrap()` panics; on success the wrapped struct is mutated
in place and `rb_self` is returned. -/
def rb_set_stdin_file (h : Host) (heap : Heap) (self : Nat) (path : String) :
    Heap × CallOutcome Nat :=
  match (file_r h path).map wasiFileRead with
  | none => (heap, .panicked)
  | some cs =>
    (heap.updateAt self fun c => { c with inner := c.inner.set_stdin cs }, .ok self)

/-- Method `set_stdin_string` as a Ruby call on object `self`. -/
def rb_set_stdin_string (heap : Heap) (self : Nat) (content : List Byte) :
    Heap × CallOutcome Nat :=
  (heap.updateAt self fun c =>
    { c with inner := c.inner.set_stdin (.memSource content 0) }, .ok self)

/-- Method `set_stdout_file` as a Ruby call on object `self`. -/
def rb_set_stdout_file (h : Host) (heap : Heap) (self : Nat) (path : String) :
    Heap × CallOutcome Nat :=
  match (file_w h path).map wasiFileWrite with
  | none => (heap, .panicked)
  | some cs =>
    (heap.updateAt self fun c => { c with inner := c.inner.set_stdout cs }, .ok self)

/-- Method `set_stdout_buffer` as a Ruby call on object `self`. -/
def rb_set_stdout_buffer (heap : Heap) (self : Nat) (bufId capacity : Nat) :
    Heap × CallOutcome Nat :=
  (heap.updateAt self fun c =>
    { c with inner := c.inner.set_stdout (.boundedSink bufId capacity) }, .ok self)

/-- Method `set_stderr_file` as a Ruby call on object `self`. -/
def rb_set_stderr_file (h : Host) (heap : Heap) (self : Nat) (path : String) :
    Heap × CallOutcome Nat :=
  match (file_w h path).map wasiFileWrite with
  | none => (heap, .panicked)
  | some cs =>
    (heap.updateAt self fun c => { c with inner := c.inner.set_stderr cs }, .ok self)

/-- Method `set_stderr_buffer` as a Ruby call on object `self`. -/
def rb_set_stderr_buffer (heap : Heap) (self : Nat) (bufId capacity : Nat) :
    Heap × CallOutcome Nat :=
  (heap.updateAt self fun c =>
    { c with inner := c.inner.set_stderr (.boundedSink bufId capacity) }, .ok self)

/-! ## Claim theorems -/

/-- C2: for a bounded output buffer of capacity `C`, a write of `a` bytes
followed by a write of `b` bytes succeeds iff `a + b ≤ C`; when the
second write fails it fails with `CapacityExceededError` and commits
nothing, so the buffer length remains exactly `a`. -/
theorem bounded_sink_all_or_nothing (xs ys : List Byte) (C : Nat) :
    (((OutputLimitedBuffer.write ⟨⟨[], false⟩, C⟩ xs).2 = none ∧
      ((OutputLimitedBuffer.write ⟨⟨[], false⟩, C⟩ xs).1.write ys).2 = none) ↔
      xs.length + ys.length ≤ C) ∧
    (xs.length ≤ C → C < xs.length + ys.length →
      (OutputLimitedBuffer.write ⟨⟨[], false⟩, C⟩ xs).1.write ys =
        ((OutputLimitedBuffer.write ⟨⟨[], false⟩, C⟩ xs).1,
          some .capacityExceeded) ∧
      (OutputLimitedBuffer.write ⟨⟨[], false⟩, C⟩ xs).1.buffer.bytes.length =
        xs.length) := by
  by_cases hx : C < xs.length
  · constructor
    · simp only [OutputLimitedBuffer.write]
      simp [hx]
      omega
    · intro h1
      omega
  · constructor
    · simp only [OutputLimitedBuffer.write]
      simp [hx]
      by_cases hxy : C < xs.length + ys.length <;> simp [hxy] <;> omega
    · intro h1 h2
      simp only [OutputLimitedBuffer.write]
      simp [hx, h2]

/-- Witness for C2 at `xs = [0,0,0]`, `ys = [0,0,0,0]`, `C = 5`. -/
theorem bounded_sink_all_or_nothing_witness :
    (OutputLimitedBuffer.write ⟨⟨[], false⟩, 5⟩ [0, 0, 0]).1.write [0, 0, 0, 0] =
      ((OutputLimitedBuffer.write ⟨⟨[], false⟩, 5⟩ [0, 0, 0]).1,
        some .capacityExceeded) ∧
    (OutputLimitedBuffer.write ⟨⟨[], false⟩, 5⟩ [0, 0, 0]).1.buffer.bytes.length =
      [0, 0, 0].length :=
  (bounded_sink_all_or_nothing [0, 0, 0] [0, 0, 0, 0] 5).2 (by decide) (by decide)

/-- C4: a write through a bounded sink whose target buffer is frozen at
the moment of the write fails with the distinct `BufferImmutableError`,
mutates nothing, and the failure is the guest-visible result of the
stream operation that triggered it (it aborts that operation). -/
theorem frozen_buffer_write_fails (o : OutputLimitedBuffer) (bs : List Byte)
    (hf : o.buffer.frozen = true) (h : Host) (w : World) (bufId cap : Nat)
    (hs : w.ctx.inner.stdout = some (.boundedSink bufId cap))
    (hfz : (w.rstrings bufId).frozen = true) :
    o.write bs = (o, some .bufferImmutable) ∧
    step h w (.writeStdout bs) = (w, .writes (some .bufferImmutable)) := by
  obtain ⟨⟨⟨s1, s2, s3⟩⟩, fl, rs⟩ := w
  simp only at hs hfz
  subst hs
  refine ⟨by simp [OutputLimitedBuffer.write, hf], ?_⟩
  simp [step, writeTo, OutputLimitedBuffer.write, hfz]
  all_goals
    funext i
    by_cases hi : i = bufId <;> simp [hi]

/-- A host for concrete instantiations: no readable files, every path
writable, zero clock, empty identity. -/
def hostA : Host :=
  { fs := fun _ => none, fsWritable := fun _ => true, clock := 0, hostId := [] }

/-- A world whose stdout is a bounded sink over a frozen Ruby string. -/
def worldFrozen : World :=
  { ctx := ⟨⟨some (.memSource [] 0), some (.boundedSink 0 5), some (.detSink [])⟩⟩
    files := fun _ => []
    rstrings := fun _ => ⟨[], true⟩ }

/-- Witness for C4 at a concrete frozen buffer and world. -/
theorem frozen_buffer_write_fails_witness :
    OutputLimitedBuffer.write ⟨⟨[], true⟩, 5⟩ [1] =
      (⟨⟨[], true⟩, 5⟩, some .bufferImmutable) ∧
    step hostA worldFrozen (.writeStdout [1]) =
      (worldFrozen, .writes (some .bufferImmutable)) :=
  frozen_buffer_write_fails ⟨⟨[], true⟩, 5⟩ [1] rfl hostA worldFrozen 0 5 rfl rfl

/-- A host on which no path can be opened for reading or writing. -/
def hostNone : Host :=
  { fs := fun _ => none, fsWritable := fun _ => false, clock := 0, hostId := [] }

/-- C1 (code bug): at a path that cannot be opened, the file setters do
not return a recoverable `IoError` — the `.unwrap()` on the failed open
panics.  Evaluated at a concrete failing input: the call outcome is
`panicked` (the panic surfaces at the call; no error value reaches the
caller as a normal return). -/
theorem file_setters_panic_on_open_failure :
    set_stdin_file hostNone (initWorld WasiCtx.deterministic) "missing.txt" =
      (initWorld WasiCtx.deterministic, .panicked) ∧
    set_stdout_file hostNone (initWorld WasiCtx.deterministic) "out.txt" =
      (initWorld WasiCtx.deterministic, .panicked) ∧
    set_stderr_file hostNone (initWorld WasiCtx.deterministic) "err.txt" =
      (initWorld WasiCtx.deterministic, .panicked) :=
  ⟨rfl, rfl, rfl⟩

/-- C8: when a file-backed setter fails because the path cannot be
opened, nothing is installed: the world — the three context slots, the
files and the buffers — is exactly as before the call, and the failure
is surfaced by the configuring call itself, never later through a guest
stream operation. -/
theorem failed_open_leaves_context_unchanged (h : Host) (w : World)
    (path : String) :
    (file_r h path = none → set_stdin_file h w path = (w, .panicked)) ∧
    (file_w h path = none →
      set_stdout_file h w path = (w, .panicked) ∧
      set_stderr_file h w path = (w, .panicked)) := by
  constructor
  · intro hr
    simp [set_stdin_file, hr]
  · intro hw
    constructor <;> simp [set_stdout_file, set_stderr_file, hw]

/-- Witness for C8 on the host with no openable paths. -/
theorem failed_open_leaves_context_unchanged_witness :
    set_stdin_file hostNone (initWorld WasiCtx.deterministic) "a.txt" =
      (initWorld WasiCtx.deterministic, .panicked) ∧
    set_stdout_file hostNone (initWorld WasiCtx.deterministic) "a.txt" =
      (initWorld WasiCtx.deterministic, .panicked) ∧
    set_stderr_file hostNone (initWorld WasiCtx.deterministic) "a.txt" =
      (initWorld WasiCtx.deterministic, .panicked) :=
  ⟨(failed_open_leaves_context_unchanged hostNone
      (initWorld WasiCtx.deterministic) "a.txt").1 rfl,
   (failed_open_leaves_context_unchanged hostNone
      (initWorld WasiCtx.deterministic) "a.txt").2 rfl⟩

/-- C5: `set_stdin_string` never fails (outcome `ok`), installs an
in-memory source over a copy of `content`, a full read returns exactly
`content`, and every read after exhaustion returns the end-of-stream
signal `[]` and leaves the world unchanged (idempotent). -/
theorem stdin_string_reads_exactly (w : World) (content : List Byte)
    (h : Host) (n : Nat) :
    (set_stdin_string w content).2 = .ok () ∧
    (step h (set_stdin_string w content).1 (.readStdin content.length)).2 =
      .reads content ∧
    step h
        (step h (set_stdin_string w content).1 (.readStdin content.length)).1
        (.readStdin n) =
      ((step h (set_stdin_string w content).1 (.readStdin content.length)).1,
        .reads []) := by
  obtain ⟨⟨⟨s1, s2, s3⟩⟩, fl, rs⟩ := w
  refine ⟨rfl, ?_, ?_⟩ <;>
    simp [set_stdin_string, step, readFrom, WasiCtxImpl.set_stdin]

/-- C10: `get_inner` is non-destructive: it returns the stored inner
context and leaves the receiver — all three slots included — unchanged;
a second `get_inner` with no intervening setter returns an equal inner
context, and the setters behave on the post-`get_inner` object exactly
as on the original. -/
theorem get_inner_nondestructive (s : WasiCtx) (b : IoBackend) :
    s.get_inner.2 = s ∧
    s.get_inner.1 = s.inner ∧
    s.get_inner.2.get_inner.1 = s.get_inner.1 ∧
    s.get_inner.2.inner.stdin = s.inner.stdin ∧
    s.get_inner.2.inner.stdout = s.inner.stdout ∧
    s.get_inner.2.inner.stderr = s.inner.stderr ∧
    s.get_inner.2.inner.set_stdin b = s.inner.set_stdin b ∧
    s.get_inner.2.inner.set_stdout b = s.inner.set_stdout b ∧
    s.get_inner.2.inner.set_stderr b = s.inner.set_stderr b :=
  ⟨rfl, rfl, rfl, rfl, rfl, rfl, rfl, rfl, rfl⟩

/-- Frame facts about an in-place object update: every other object is
untouched and no object is created or destroyed. -/
theorem updateAt_frame (heap : Heap) (self : Nat) (f : WasiCtx → WasiCtx) :
    (∀ j, j ≠ self → heap.updateAt self f j = heap j) ∧
    (∀ j, (heap.updateAt self f j).isSome = (heap j).isSome) := by
  constructor
  · intro j hj
    simp [Heap.updateAt, hj]
  · intro j
    by_cases hj : j = self <;> simp [Heap.updateAt, hj]

/-- C9: every successful slot-setter call returns the receiver object
`self` itself (so calls chain), leaves every other heap object untouched,
and creates no new context object (the heap's populated ids are
unchanged); the mutation happens in place at `self`. -/
theorem setters_return_self_in_place (h : Host) (heap : Heap) (self : Nat)
    (path : String) (content : List Byte) (bufId capacity : Nat) :
    ((rb_set_stdin_string heap self content).2 = .ok self ∧
      (∀ j, j ≠ self → (rb_set_stdin_string heap self content).1 j = heap j) ∧
      ∀ j, ((rb_set_stdin_string heap self content).1 j).isSome = (heap j).isSome) ∧
    ((rb_set_stdout_buffer heap self bufId capacity).2 = .ok self ∧
      (∀ j, j ≠ self → (rb_set_stdout_buffer heap self bufId capacity).1 j = heap j) ∧
      ∀ j, ((rb_set_stdout_buffer heap self bufId capacity).1 j).isSome = (heap j).isSome) ∧
    ((rb_set_stderr_buffer heap self bufId capacity).2 = .ok self ∧
      (∀ j, j ≠ self → (rb_set_stderr_buffer heap self bufId capacity).1 j = heap j) ∧
      ∀ j, ((rb_set_stderr_buffer heap self bufId capacity).1 j).isSome = (heap j).isSome) ∧
    ((file_r h path).isSome = true →
      (rb_set_stdin_file h heap self path).2 = .ok self ∧
      (∀ j, j ≠ self → (rb_set_stdin_file h heap self path).1 j = heap j) ∧
      ∀ j, ((rb_set_stdin_file h heap self path).1 j).isSome = (heap j).isSome) ∧
    ((file_w h path).isSome = true →
      ((rb_set_stdout_file h heap self path).2 = .ok self ∧
        (∀ j, j ≠ self → (rb_set_stdout_file h heap self path).1 j = heap j) ∧
        ∀ j, ((rb_set_stdout_file h heap self path).1 j).isSome = (heap j).isSome) ∧
      ((rb_set_stderr_file h heap self path).2 = .ok self ∧
        (∀ j, j ≠ self → (rb_set_stderr_file h heap self path).1 j = heap j) ∧
        ∀ j, ((rb_set_stderr_file h heap self path).1 j).isSome = (heap j).isSome)) := by
  refine ⟨⟨rfl, (updateAt_frame heap self _).1, (updateAt_frame heap self _).2⟩,
    ⟨rfl, (updateAt_frame heap self _).1, (updateAt_frame heap self _).2⟩,
    ⟨rfl, (updateAt_frame heap self _).1, (updateAt_frame heap self _).2⟩,
    ?_, ?_⟩
  · intro hr
    cases hfr : file_r h path with
    | none => rw [hfr] at hr; simp at hr
    | some p =>
      simp only [rb_set_stdin_file, hfr, Option.map_some]
      exact ⟨rfl, (updateAt_frame heap self _).1, (updateAt_frame heap self _).2⟩
  · intro hw
    cases hfw : file_w h path with
    | none => rw [hfw] at hw; simp at hw
    | some p =>
      constructor <;> simp only [rb_set_stdout_file, rb_set_stderr_file, hfw,
        Option.map_some] <;>
        exact ⟨rfl, (updateAt_frame heap self _).1, (updateAt_frame heap self _).2⟩

/-- A host on which every path is readable (empty content) and writable. -/
def hostB : Host :=
  { fs := fun _ => some [], fsWritable := fun _ => true, clock := 0, hostId := [] }

/-- A heap holding one context object, at id `0`. -/
def heapA : Heap :=
  fun i => if i = 0 then some WasiCtx.deterministic else none

/-- Witness for C9: on a concrete heap with one object, each setter
returns id `0`, object `1` is untouched and no ids change population. -/
theorem setters_return_self_in_place_witness :
    ((rb_set_stdin_string heapA 0 [7]).2 = .ok 0 ∧
      (rb_set_stdin_string heapA 0 [7]).1 1 = heapA 1 ∧
      ((rb_set_stdin_string heapA 0 [7]).1 1).isSome = (heapA 1).isSome) ∧
    ((rb_set_stdin_file hostB heapA 0 "in.txt").2 = .ok 0 ∧
      (rb_set_stdin_file hostB heapA 0 "in.txt").1 1 = heapA 1) ∧
    ((rb_set_stdout_file hostB heapA 0 "out.txt").2 = .ok 0 ∧
      (rb_set_stderr_file hostB heapA 0 "err.txt").2 = .ok 0) :=
  ⟨⟨(setters_return_self_in_place hostB heapA 0 "in.txt" [7] 0 0).1.1,
    (setters_return_self_in_place hostB heapA 0 "in.txt" [7] 0 0).1.2.1 1 one_ne_zero,
    (setters_return_self_in_place hostB heapA 0 "in.txt" [7] 0 0).1.2.2 1⟩,
   ⟨((setters_return_self_in_place hostB heapA 0 "in.txt" [7] 0 0).2.2.2.1 rfl).1,
    ((setters_return_self_in_place hostB heapA 0 "in.txt" [7] 0 0).2.2.2.1 rfl).2.1 1 one_ne_zero⟩,
   ⟨(((setters_return_self_in_place hostB heapA 0 "out.txt" [7] 0 0).2.2.2.2 rfl).1).1,
    (((setters_return_self_in_place hostB heapA 0 "err.txt" [7] 0 0).2.2.2.2 rfl).2).1⟩⟩

/-- Reading through a host-free backend leaves it host-free. -/
theorem readFrom_hostFree (h : Host) (b : IoBackend) (n : Nat)
    (hb : b.hostFree = true) : (readFrom h b n).1.hostFree = true := by
  cases b <;> simp_all [readFrom, IoBackend.hostFree]

/-- Writing through a host-free backend leaves it host-free. -/
theorem writeTo_hostFree (h : Host) (files : String → List Byte)
    (rstrings : Nat → RubyString) (b : IoBackend) (bs : List Byte)
    (hb : b.hostFree = true) :
    (writeTo h files rstrings b bs).1.hostFree = true := by
  cases b <;> simp_all [writeTo, IoBackend.hostFree]

/-- On a world whose slots hold only host-free backends, a guest step
does not depend on the host environment at all. -/
theorem step_host_agnostic (h1 h2 : Host) (w : World) (op : GuestOp)
    (hw : hostFreeWorld w) : step h1 w op = step h2 w op := by
  obtain ⟨⟨⟨s1, s2, s3⟩⟩, fl, rs⟩ := w
  obtain ⟨hin, hout, herr⟩ := hw
  cases op with
  | readStdin n =>
    cases s1 with
    | none => rfl
    | some b =>
      cases b with
      | fileRead p pos => have := hin _ rfl; simp [IoBackend.hostFree] at this
      | fileWrite p => rfl
      | memSource c pos => rfl
      | boundedSink i c => rfl
      | detSink c => rfl
  | writeStdout bs =>
    cases s2 with
    | none => rfl
    | some b =>
      cases b with
      | fileRead p pos => rfl
      | fileWrite p => have := hout _ rfl; simp [IoBackend.hostFree] at this
      | memSource c pos => rfl
      | boundedSink i c => rfl
      | detSink c => rfl
  | writeStderr bs =>
    cases s3 with
    | none => rfl
    | some b =>
      cases b with
      | fileRead p pos => rfl
      | fileWrite p => have := herr _ rfl; simp [IoBackend.hostFree] at this
      | memSource c pos => rfl
      | boundedSink i c => rfl
      | detSink c => rfl

/-- A guest step preserves host-freeness of all three slots. -/
theorem step_preserves_hostFree (h : Host) (w : World) (op : GuestOp)
    (hw : hostFreeWorld w) : hostFreeWorld (step h w op).1 := by
  obtain ⟨⟨⟨s1, s2, s3⟩⟩, fl, rs⟩ := w
  obtain ⟨hin, hout, herr⟩ := hw
  cases op with
  | readStdin n =>
    cases s1 with
    | none => exact ⟨hin, hout, herr⟩
    | some b =>
      refine ⟨?_, hout, herr⟩
      intro b' hb'
      injection hb' with hb'
      subst hb'
      exact readFrom_hostFree h b n (hin b rfl)
  | writeStdout bs =>
    cases s2 with
    | none => exact ⟨hin, hout, herr⟩
    | some b =>
      refine ⟨hin, ?_, herr⟩
      intro b' hb'
      injection hb' with hb'
      subst hb'
      exact writeTo_hostFree h fl rs b bs (hout b rfl)
  | writeStderr bs =>
    cases s3 with
    | none => exact ⟨hin, hout, herr⟩
    | some b =>
      refine ⟨hin, hout, ?_⟩
      intro b' hb'
      injection hb' with hb'
      subst hb'
      exact writeTo_hostFree h fl rs b bs (herr b rfl)

/-- On a host-free world, whole runs are independent of the host. -/
theorem run_host_agnostic (h1 h2 : Host) (ops : List GuestOp) :
    ∀ w, hostFreeWorld w → run h1 w ops = run h2 w ops := by
  induction ops with
  | nil => intro w _; rfl
  | cons op ops ih =>
    intro w hw
    simp only [run]
    rw [step_host_agnostic h1 h2 w op hw,
      ih _ (step_preserves_hostFree h2 w op hw)]

/-- C3: the deterministic constructor is the total wrapper of the
deterministic context (it has no failure path), and any two worlds built
from it — each invocation produces this same context value — driven with
the same guest operations on arbitrary, possibly different hosts yield
the same guest-visible results and byte-identical stdout and stderr
captures: no clock, filesystem or host-identity difference is observable
through the three streams. -/
theorem deterministic_host_independent (h1 h2 : Host) (ops : List GuestOp) :
    WasiCtx.deterministic.inner = wasi_deterministic_ctx ∧
    (run h1 (initWorld WasiCtx.deterministic) ops).2 =
      (run h2 (initWorld WasiCtx.deterministic) ops).2 ∧
    stdoutCapture (run h1 (initWorld WasiCtx.deterministic) ops).1 =
      stdoutCapture (run h2 (initWorld WasiCtx.deterministic) ops).1 ∧
    stderrCapture (run h1 (initWorld WasiCtx.deterministic) ops).1 =
      stderrCapture (run h2 (initWorld WasiCtx.deterministic) ops).1 := by
  have hfw : hostFreeWorld (initWorld WasiCtx.deterministic) := by
    refine ⟨?_, ?_, ?_⟩ <;>
      · intro b hb
        injection hb with hb
        subst hb
        rfl
  have hr := run_host_agnostic h1 h2 ops (initWorld WasiCtx.deterministic) hfw
  exact ⟨rfl, by rw [hr], by rw [hr], by rw [hr]⟩

/-- Whether a backend is a file sink on path `p`. -/
def IoBackend.writesFile : IoBackend → String → Bool
  | .fileWrite q, p => decide (q = p)
  | _, _ => false

/-- One guest step on a world whose stdout is the file sink on `p2` and
whose stderr does not target `p1` or `p2`: the slot conditions are
preserved, the file at `p1` is untouched, and the file at `p2` grows by
exactly the bytes the step wrote to stdout. -/
theorem step_files_frame (h : Host) (p1 p2 : String) (hne : p1 ≠ p2)
    (hw2 : h.fsWritable p2 = true) (w : World) (op : GuestOp)
    (hout : w.ctx.inner.stdout = some (.fileWrite p2))
    (herr : ∀ b, w.ctx.inner.stderr = some b →
      b.writesFile p1 = false ∧ b.writesFile p2 = false) :
    (step h w op).1.ctx.inner.stdout = some (.fileWrite p2) ∧
    (∀ b, (step h w op).1.ctx.inner.stderr = some b →
      b.writesFile p1 = false ∧ b.writesFile p2 = false) ∧
    (step h w op).1.files p1 = w.files p1 ∧
    (step h w op).1.files p2 = w.files p2 ++ writtenStdout [op] := by
  obtain ⟨⟨⟨s1, s2, s3⟩⟩, fl, rs⟩ := w
  simp only at hout herr ⊢
  subst hout
  cases op with
  | readStdin n =>
    cases s1 with
    | none => exact ⟨rfl, herr, rfl, by simp [step, writtenStdout]⟩
    | some b => exact ⟨rfl, herr, rfl, by simp [step, writtenStdout]⟩
  | writeStdout bs =>
    refine ⟨?_, ?_, ?_, ?_⟩
    · simp [step, writeTo, hw2]
    · simp only [step, writeTo, hw2, if_true]
      exact herr
    · simp [step, writeTo, hw2, hne]
    · simp [step, writeTo, hw2, writtenStdout]
  | writeStderr bs =>
    cases s3 with
    | none => exact ⟨rfl, herr, rfl, by simp [step, writtenStdout]⟩
    | some b =>
      have hb := herr b rfl
      simp only [IoBackend.writesFile] at hb
      cases b with
      | fileRead p pos => exact ⟨rfl, herr, rfl, by simp [step, writeTo, writtenStdout]⟩
      | memSource c pos => exact ⟨rfl, herr, rfl, by simp [step, writeTo, writtenStdout]⟩
      | fileWrite q =>
        have hq1 : ¬(q = p1) := by simpa using hb.1
        have hq2 : ¬(q = p2) := by simpa using hb.2
        by_cases hwq : h.fsWritable q
        · refine ⟨?_, ?_, ?_, ?_⟩
          · simp [step, writeTo, hwq]
          · simp only [step, writeTo, hwq, if_true]
            exact herr
          · have hn1 : ¬(p1 = q) := fun e => hq1 e.symm
            simp [step, writeTo, hwq, hn1]
          · have hn2 : ¬(p2 = q) := fun e => hq2 e.symm
            simp [step, writeTo, hwq, hn2, writtenStdout]
        · refine ⟨?_, ?_, ?_, ?_⟩
          · simp [step, writeTo, hwq]
          · simp only [step, writeTo, if_neg hwq]
            simpa using herr
          · simp [step, writeTo, hwq]
          · simp [step, writeTo, hwq, writtenStdout]
      | boundedSink i c =>
        refine ⟨?_, ?_, ?_, ?_⟩
        · simp [step, writeTo]
        · simp only [step, writeTo]
          simpa using herr
        · simp [step, writeTo]
        · simp [step, writeTo, writtenStdout]
      | detSink c =>
        refine ⟨?_, ?_, ?_, ?_⟩
        · simp [step, writeTo]
        · intro b' hb'
          simp only [step, writeTo] at hb'
          injection hb' with hb'
          subst hb'
          exact ⟨rfl, rfl⟩
        · simp [step, writeTo]
        · simp [step, writeTo, writtenStdout]

/-- Over a whole run: the file at `p1` is untouched and the file at `p2`
receives exactly the stdout bytes, in order. -/
theorem run_files_frame (h : Host) (p1 p2 : String) (hne : p1 ≠ p2)
    (hw2 : h.fsWritable p2 = true) :
    ∀ (ops : List GuestOp) (w : World),
      w.ctx.inner.stdout = some (.fileWrite p2) →
      (∀ b, w.ctx.inner.stderr = some b →
        b.writesFile p1 = false ∧ b.writesFile p2 = false) →
      (run h w ops).1.files p1 = w.files p1 ∧
      (run h w ops).1.files p2 = w.files p2 ++ writtenStdout ops := by
  intro ops
  induction ops with
  | nil => intro w _ _; exact ⟨rfl, by simp [writtenStdout, run]⟩
  | cons op ops ih =>
    intro w hout herr
    obtain ⟨ho', he', hp1, hp2⟩ := step_files_frame h p1 p2 hne hw2 w op hout herr
    obtain ⟨ih1, ih2⟩ := ih (step h w op).1 ho' he'
    constructor
    · show (run h (step h w op).1 ops).1.files p1 = w.files p1
      rw [ih1, hp1]
    · show (run h (step h w op).1 ops).1.files p2 =
        w.files p2 ++ writtenStdout (op :: ops)
      rw [ih2, hp2]
      cases op <;> simp [writtenStdout]

/-- C6: replacing stdout twice (`set_stdout_file p1` then
`set_stdout_file p2`) leaves the stdin and stderr slots unchanged,
installs the `p2` file sink in place of the dropped `p1` sink, and every
subsequent guest write goes only to `p2` while `p1` receives nothing
further. -/
theorem stdout_replacement_frame (h : Host) (w : World) (p1 p2 : String)
    (hp1 : h.fsWritable p1 = true) (hp2 : h.fsWritable p2 = true)
    (hne : p1 ≠ p2)
    (herr : ∀ b, w.ctx.inner.stderr = some b →
      b.writesFile p1 = false ∧ b.writesFile p2 = false) :
    (set_stdout_file h (set_stdout_file h w p1).1 p2).1.ctx.inner.stdin =
      w.ctx.inner.stdin ∧
    (set_stdout_file h (set_stdout_file h w p1).1 p2).1.ctx.inner.stderr =
      w.ctx.inner.stderr ∧
    (set_stdout_file h (set_stdout_file h w p1).1 p2).1.ctx.inner.stdout =
      some (.fileWrite p2) ∧
    ∀ ops : List GuestOp,
      (run h (set_stdout_file h (set_stdout_file h w p1).1 p2).1 ops).1.files p1 =
        (set_stdout_file h (set_stdout_file h w p1).1 p2).1.files p1 ∧
      (run h (set_stdout_file h (set_stdout_file h w p1).1 p2).1 ops).1.files p2 =
        (set_stdout_file h (set_stdout_file h w p1).1 p2).1.files p2 ++
          writtenStdout ops := by
  obtain ⟨⟨⟨s1, s2, s3⟩⟩, fl, rs⟩ := w
  simp only at herr
  have e1 : file_w h p1 = some p1 := by simp [file_w, hp1]
  have e2 : file_w h p2 = some p2 := by simp [file_w, hp2]
  simp only [set_stdout_file, e1, e2, Option.map_some, wasiFileWrite,
    WasiCtxImpl.set_stdout]
  refine ⟨rfl, rfl, rfl, ?_⟩
  intro ops
  exact run_files_frame h p1 p2 hne hp2 ops _ rfl herr

/-- Witness for C6: deterministic base context, paths `"p1"`, `"p2"`,
one guest write of two bytes. -/
theorem stdout_replacement_frame_witness :
    (set_stdout_file hostA
        (set_stdout_file hostA (initWorld WasiCtx.deterministic) "p1").1
        "p2").1.ctx.inner.stdout = some (.fileWrite ("p2")) ∧
    (run hostA
        (set_stdout_file hostA
          (set_stdout_file hostA (initWorld WasiCtx.deterministic) "p1").1
          "p2").1 [.writeStdout [1, 2]]).1.files ("p1") =
      (set_stdout_file hostA
        (set_stdout_file hostA (initWorld WasiCtx.deterministic) "p1").1
        "p2").1.files ("p1") ∧
    (run hostA
        (set_stdout_file hostA
          (set_stdout_file hostA (initWorld WasiCtx.deterministic) "p1").1
          "p2").1 [.writeStdout [1, 2]]).1.files ("p2") =
      (set_stdout_file hostA
        (set_stdout_file hostA (initWorld WasiCtx.deterministic) "p1").1
        "p2").1.files ("p2") ++ writtenStdout [.writeStdout [1, 2]] :=
  ⟨(stdout_replacement_frame hostA (initWorld WasiCtx.deterministic) "p1" "p2"
      rfl rfl (by decide)
      (fun b hb => by cases hb; exact ⟨rfl, rfl⟩)).2.2.1,
   ((stdout_replacement_frame hostA (initWorld WasiCtx.deterministic) "p1" "p2"
      rfl rfl (by decide)
      (fun b hb => by cases hb; exact ⟨rfl, rfl⟩)).2.2.2 [.writeStdout [1, 2]]).1,
   ((stdout_replacement_frame hostA (initWorld WasiCtx.deterministic) "p1" "p2"
      rfl rfl (by decide)
      (fun b hb => by cases hb; exact ⟨rfl, rfl⟩)).2.2.2 [.writeStdout [1, 2]]).2⟩

/-- Every configuration call preserves the populated-slots invariant
(a panicking file setter leaves the world unchanged; a successful setter
replaces exactly one slot with a present backend). -/
theorem applyCall_preserves_populated (h : Host) (w : World) (c : SetterCall)
    (hp : populated w.ctx.inner) : populated (applyCall h w c).1.ctx.inner := by
  obtain ⟨⟨⟨s1, s2, s3⟩⟩, fl, rs⟩ := w
  obtain ⟨h1, h2, h3⟩ := hp
  simp only at h1 h2 h3
  cases c with
  | stdinFile path =>
    cases hfr : file_r h path <;>
      simp_all [applyCall, set_stdin_file, populated, WasiCtxImpl.set_stdin]
  | stdinString content =>
    simp_all [applyCall, set_stdin_string, populated, WasiCtxImpl.set_stdin]
  | stdoutFile path =>
    cases hfw : file_w h path <;>
      simp_all [applyCall, set_stdout_file, populated, WasiCtxImpl.set_stdout]
  | stdoutBuffer bufId capacity =>
    simp_all [applyCall, set_stdout_buffer, populated, WasiCtxImpl.set_stdout]
  | stderrFile path =>
    cases hfw : file_w h path <;>
      simp_all [applyCall, set_stderr_file, populated, WasiCtxImpl.set_stderr]
  | stderrBuffer bufId capacity =>
    simp_all [applyCall, set_stderr_buffer, populated, WasiCtxImpl.set_stderr]

/-- C7: the deterministic constructor yields a context with all three
slots populated; `from_inner` preserves population of the wrapped inner
context; and any sequence of slot-replacement calls, from any populated
context, keeps all three slots populated at every point — no reachable
state has an empty slot. -/
theorem slots_always_populated :
    populated WasiCtx.deterministic.inner ∧
    (∀ inner, populated inner → populated (WasiCtx.from_inner inner).inner) ∧
    ∀ (h : Host) (w : World) (calls : List SetterCall),
      populated w.ctx.inner → populated (applyCalls h w calls).ctx.inner := by
  refine ⟨⟨rfl, rfl, rfl⟩, fun inner hp => hp, ?_⟩
  intro h w calls
  induction calls generalizing w with
  | nil => exact fun hp => hp
  | cons c cs ih =>
    intro hp
    exact ih (applyCall h w c).1 (applyCall_preserves_populated h w c hp)

/-- Witness for C7: a concrete call sequence from the deterministic
context keeps all slots populated. -/
theorem slots_always_populated_witness :
    populated (applyCalls hostA (initWorld WasiCtx.deterministic)
      [.stdoutFile ("o"), .stdinString [1], .stderrBuffer 0 4,
        .stdinFile ("i")]).ctx.inner :=
  slots_always_populated.2.2 hostA (initWorld WasiCtx.deterministic)
    [.stdoutFile ("o"), .stdinString [1], .stderrBuffer 0 4, .stdinFile ("i")]
    (by decide)

end WasmtimeRb
